import Mathlib

/-!
Shallow embedding of the driver time-tracking and returns-intake
application (a Next.js client over Firestore).  The definitions below are
translated from the TypeScript source:

* `src/lib/types.ts` — the data model (`Driver`, `PunchLog`, `ReturnItem`,
  `ReturnForm`, `User`);
* `src/components/PunchInOut.tsx` — the punch-state derivation
  (`nextPunchType`), the PIN gate (`handlePinPunch`) and the face gate
  (`handleFaceVerified`);
* `src/components/FaceRecognition.tsx` — the face-match decision rule of
  `detectFace` (Euclidean distance below the fixed threshold `0.4`);
* `src/components/ReturnForm.tsx` — the zod validation schema
  (`returnFormSchema`) and the submission record built by `onSubmit`;
* `src/components/AdminDashboard.tsx` — the admin status transition
  (`updateFormStatus`);
* `src/components/DriverDashboard.tsx` — the post-punch flow
  (`handlePunchSuccess`);
* `src/lib/firestore.ts` — the query wrappers (`getLastPunchLog`,
  `getDriverByDriverId`, `updateReturnForm`).

The Firestore ledger of punch logs is modelled as a list kept
most-recent-first, so the `orderBy(timestamp, desc) + limit(1)` query of
`getLastPunchLog` is `List.head?`.  JavaScript numbers appearing in the
data (item quantities, face-embedding coordinates) are modelled as `ℚ`;
timestamps as `Nat`.
-/

namespace DMS

/-- Direction of a punch event: the TypeScript union `'in' | 'out'`. -/
inductive PunchDirection
| inDir
| outDir
deriving DecidableEq

/-- Authorization method of a punch: the TypeScript union `'face' | 'pin'`. -/
inductive PunchMethod
| face
| pin
deriving DecidableEq

/-- Role of an application user: the TypeScript union `'admin' | 'driver'`. -/
inductive Role
| admin
| driver
deriving DecidableEq

/-- Status of a return form: `'pending' | 'approved' | 'rejected'`. -/
inductive FormStatus
| pending
| approved
| rejected
deriving DecidableEq

/-- The `Driver` interface of `src/lib/types.ts`.  Optional TypeScript
fields (`phone?`, `pin?`, `faceDescriptor?`) become `Option`s; the face
descriptor is a numeric vector. -/
structure Driver where
  id : String
  name : String
  email : String
  driverId : String
  phone : Option String
  pin : Option String
  faceDescriptor : Option (List ℚ)
  createdAt : Nat
  isActive : Bool
deriving DecidableEq

/-- The `PunchLog` interface of `src/lib/types.ts`. -/
structure PunchLog where
  id : String
  driverId : String
  driverName : String
  type : PunchDirection
  timestamp : Nat
  method : PunchMethod
  location : Option String
deriving DecidableEq

/-- The `ReturnItem` interface of `src/lib/types.ts`.  The `condition`
field is kept as a raw string so that the zod enumeration check on it can
be stated. -/
structure ReturnItem where
  itemName : String
  quantity : ℚ
  condition : String
  notes : Option String
deriving DecidableEq

/-- The `ReturnForm` interface of `src/lib/types.ts`. -/
structure ReturnForm where
  id : String
  driverId : String
  driverName : String
  punchLogId : String
  items : List ReturnItem
  totalItems : ℚ
  submittedAt : Nat
  status : FormStatus
deriving DecidableEq

/-- The `User` interface of `src/lib/types.ts` (a document of the
`users` collection). -/
structure User where
  id : String
  email : String
  role : Role
  driverId : Option String
deriving DecidableEq

/-- The `getLastPunchLog` query of `src/lib/firestore.ts`: the ledger is
ordered by timestamp descending and limited to one row, so on a
most-recent-first list it returns the head (and `null` on an empty
ledger). -/
def getLastPunchLog (ledger : List PunchLog) : Option PunchLog :=
  ledger.head?

/-- The punch-state derivation of `src/components/PunchInOut.tsx`
(lines 94, 100 and 116): `!lastPunch || lastPunch.type === 'out' ? 'in'
: 'out'`. -/
def nextPunchType (lastPunch : Option PunchLog) : PunchDirection :=
  match lastPunch with
  | none => PunchDirection.inDir
  | some p => if p.type = PunchDirection.outDir then PunchDirection.inDir else PunchDirection.outDir

/-- C1: the derived next punch action is `in` exactly when the ledger is
empty or its most recent entry is an `out`, and `out` exactly when the
most recent entry is an `in`; the derivation depends only on the most
recent entry, for histories of any length and shape. -/
theorem nextPunchType_spec (ledger : List PunchLog) :
    (nextPunchType (getLastPunchLog ledger) = PunchDirection.inDir ↔
      ledger = [] ∨ ∃ p rest, ledger = p :: rest ∧ p.type = PunchDirection.outDir) ∧
    (nextPunchType (getLastPunchLog ledger) = PunchDirection.outDir ↔
      ∃ p rest, ledger = p :: rest ∧ p.type = PunchDirection.inDir) ∧
    (∀ ledger2 : List PunchLog, getLastPunchLog ledger = getLastPunchLog ledger2 →
      nextPunchType (getLastPunchLog ledger) = nextPunchType (getLastPunchLog ledger2)) := by
  refine ⟨?_, ?_, ?_⟩
  · cases ledger with
    | nil => simp [getLastPunchLog, nextPunchType]
    | cons p rest =>
      cases hp : p.type <;>
        simp [getLastPunchLog, nextPunchType, hp]
  · cases ledger with
    | nil => simp [getLastPunchLog, nextPunchType]
    | cons p rest =>
      cases hp : p.type <;>
        simp [getLastPunchLog, nextPunchType, hp]
  · intro ledger2 h
    rw [h]

/-- Sum of squared coordinate differences of two embeddings, the inner
computation of `faceapi.euclideanDistance` as called in `detectFace`
(`src/components/FaceRecognition.tsx`, line 409). -/
def sumSqDiff (a b : List ℚ) : ℚ :=
  ((a.zip b).map (fun p => (p.1 - p.2) ^ 2)).sum

/-- Euclidean distance between a live-captured embedding and a stored
embedding, as computed by `faceapi.euclideanDistance` in `detectFace`. -/
noncomputable def euclideanDistance (a b : List ℚ) : ℝ :=
  Real.sqrt ((sumSqDiff a b : ℚ) : ℝ)

/-- The face-match decision of `detectFace`
(`src/components/FaceRecognition.tsx`, line 414):
`const isMatch = distance < 0.4`. -/
def faceMatch (a b : List ℚ) : Prop :=
  euclideanDistance a b < 2 / 5

/-- Every coordinate contributes a nonnegative square, so the summed
squared difference is nonnegative. -/
lemma sumSqDiff_nonneg (a b : List ℚ) : 0 ≤ sumSqDiff a b := by
  unfold sumSqDiff
  refine List.sum_nonneg ?_
  intro x hx
  rcases List.mem_map.mp hx with ⟨p, _, rfl⟩
  exact sq_nonneg _

/-- C2: the face-match decision is a match exactly when the Euclidean
distance is strictly below the fixed threshold `0.4`: distance `0` always
matches, distance at least `0.4` never matches, distance strictly below
`0.4` matches; equivalently, the decision holds exactly when the summed
squared difference is below `0.16`. -/
theorem faceMatch_threshold (a b : List ℚ) (h : a.length = b.length) :
    (faceMatch a b ↔ euclideanDistance a b < 2 / 5) ∧
    (euclideanDistance a b = 0 → faceMatch a b) ∧
    (2 / 5 ≤ euclideanDistance a b → ¬ faceMatch a b) ∧
    (faceMatch a b ↔ sumSqDiff a b < 4 / 25) := by
  refine ⟨Iff.rfl, ?_, ?_, ?_⟩
  · intro h0
    unfold faceMatch
    rw [h0]
    norm_num
  · intro hge hm
    exact absurd hm (not_lt.mpr hge)
  · unfold faceMatch euclideanDistance
    rw [Real.sqrt_lt' (by norm_num : (0:ℝ) < 2 / 5)]
    constructor
    · intro hlt
      have : ((sumSqDiff a b : ℚ) : ℝ) < ((4 / 25 : ℚ) : ℝ) := by
        push_cast
        calc ((sumSqDiff a b : ℚ) : ℝ) < (2 / 5) ^ 2 := hlt
        _ = 4 / 25 := by norm_num
      exact_mod_cast this
    · intro hlt
      have : ((sumSqDiff a b : ℚ) : ℝ) < ((4 / 25 : ℚ) : ℝ) := by exact_mod_cast hlt
      calc ((sumSqDiff a b : ℚ) : ℝ) < ((4 / 25 : ℚ) : ℝ) := this
      _ = (2 / 5) ^ 2 := by push_cast; norm_num

/-- Witness for `faceMatch_threshold` at the concrete identical
embeddings `[0]` and `[0]`. -/
theorem faceMatch_threshold_witness :
    ([(0 : ℚ)].length = [(0 : ℚ)].length) ∧
    ((faceMatch [(0 : ℚ)] [(0 : ℚ)] ↔ euclideanDistance [(0 : ℚ)] [(0 : ℚ)] < 2 / 5) ∧
     (euclideanDistance [(0 : ℚ)] [(0 : ℚ)] = 0 → faceMatch [(0 : ℚ)] [(0 : ℚ)]) ∧
     (2 / 5 ≤ euclideanDistance [(0 : ℚ)] [(0 : ℚ)] → ¬ faceMatch [(0 : ℚ)] [(0 : ℚ)]) ∧
     (faceMatch [(0 : ℚ)] [(0 : ℚ)] ↔ sumSqDiff [(0 : ℚ)] [(0 : ℚ)] < 4 / 25)) :=
  ⟨rfl, faceMatch_threshold [(0 : ℚ)] [(0 : ℚ)] rfl⟩

/-- The PIN guard of `handlePinPunch`
(`src/components/PunchInOut.tsx`, line 89):
`!driver?.pin || pin !== driver.pin`.  In JavaScript an absent `pin` and
the empty string are both falsy, so `!driver?.pin` rejects `none` and
`some ""` alike. -/
def pinGuardRejects (storedPin : Option String) (enteredPin : String) : Bool :=
  match storedPin with
  | none => true
  | some p => p = "" || enteredPin ≠ p

/-- The punch-log row built by `handlePunch`
(`src/components/PunchInOut.tsx`, lines 68-76): driver id and name from
the loaded driver record, the given direction and method, the current
time, no location.  The id is the one the store assigns on `addDoc`. -/
def mkPunchRow (driver : Driver) (dir : PunchDirection) (m : PunchMethod)
    (newId : String) (now : Nat) : PunchLog :=
  { id := newId
    driverId := driver.driverId
    driverName := driver.name
    type := dir
    timestamp := now
    method := m
    location := none }

/-- The `handlePinPunch` flow of `src/components/PunchInOut.tsx`
(lines 88-96) composed with `createPunchLog`: if the PIN guard rejects,
alert and return with the ledger unchanged; otherwise derive the punch
direction from the last ledger entry and append one row with method
`pin`.  Returns the new ledger and the created row, if any. -/
def handlePinPunch (driver : Driver) (enteredPin : String)
    (ledger : List PunchLog) (newId : String) (now : Nat) :
    List PunchLog × Option PunchLog :=
  if pinGuardRejects driver.pin enteredPin then
    (ledger, none)
  else
    let row := mkPunchRow driver (nextPunchType (getLastPunchLog ledger)) PunchMethod.pin newId now
    (row :: ledger, some row)

/-- The decision taken by `detectFace`
(`src/components/FaceRecognition.tsx`, lines 394-421), abstracted over
the numeric match predicate: the value passed to `onFaceVerified`, or
`none` when `onFaceVerified` is not called at all.  A detected face
during enrollment goes to `onFaceEnrolled` instead; a detected face
outside enrollment reaches the comparison only when a stored descriptor
exists (`else if (driverFaceDescriptor)`); no detected face reports
`false`. -/
def detectFaceOutcome (matchFn : List ℚ → List ℚ → Bool)
    (detection : Option (List ℚ)) (isEnrolling : Bool)
    (stored : Option (List ℚ)) : Option Bool :=
  match detection with
  | some live =>
    if isEnrolling then none
    else
      match stored with
      | some s => some (matchFn live s)
      | none => none
  | none => some false

/-- The `handleFaceVerified` callback of `src/components/PunchInOut.tsx`
(lines 98-103) composed with `createPunchLog`: a verified face punches in
the derived direction with method `face`; an unverified one does
nothing. -/
def handleFaceVerified (verified : Bool) (driver : Driver)
    (ledger : List PunchLog) (newId : String) (now : Nat) :
    List PunchLog × Option PunchLog :=
  if verified then
    let row := mkPunchRow driver (nextPunchType (getLastPunchLog ledger)) PunchMethod.face newId now
    (row :: ledger, some row)
  else
    (ledger, none)

/-- The full face punch path: `detectFace` on the driver's stored
descriptor feeding `handleFaceVerified` (outside enrollment).  When
`detectFace` never calls `onFaceVerified`, no punch is attempted. -/
def facePunch (matchFn : List ℚ → List ℚ → Bool) (detection : Option (List ℚ))
    (driver : Driver) (ledger : List PunchLog) (newId : String) (now : Nat) :
    List PunchLog × Option PunchLog :=
  match detectFaceOutcome matchFn detection false driver.faceDescriptor with
  | some v => handleFaceVerified v driver ledger newId now
  | none => (ledger, none)

/-- C9: with no stored face descriptor, `detectFace` never reports a
match — whatever the live capture produced and whether or not enrollment
was requested — and the face punch path leaves the ledger unchanged and
creates no row. -/
theorem facePunch_no_descriptor (matchFn : List ℚ → List ℚ → Bool)
    (detection : Option (List ℚ)) (isEnrolling : Bool) (driver : Driver)
    (ledger : List PunchLog) (newId : String) (now : Nat)
    (h : driver.faceDescriptor = none) :
    detectFaceOutcome matchFn detection isEnrolling none ≠ some true ∧
    facePunch matchFn detection driver ledger newId now = (ledger, none) := by
  constructor
  · cases detection with
    | none => simp [detectFaceOutcome]
    | some live =>
      cases isEnrolling <;> simp [detectFaceOutcome]
  · unfold facePunch
    rw [h]
    cases detection with
    | none => simp [detectFaceOutcome, handleFaceVerified]
    | some live => simp [detectFaceOutcome]

/-- Witness for `facePunch_no_descriptor`: a driver with no stored
descriptor, an adversarial match predicate that always answers `true`,
and a detected face. -/
theorem facePunch_no_descriptor_witness :
    ((⟨"d1", "Ann Smith", "ann@x.test", "D1", none, some "1234", none, 0, true⟩ :
        Driver).faceDescriptor = none) ∧
    (detectFaceOutcome (fun _ _ => true) (some [0]) false none ≠ some true ∧
     facePunch (fun _ _ => true) (some [0])
       ⟨"d1", "Ann Smith", "ann@x.test", "D1", none, some "1234", none, 0, true⟩
       [] "L1" 5 = ([], none)) :=
  ⟨rfl, facePunch_no_descriptor (fun _ _ => true) (some [0]) false
    ⟨"d1", "Ann Smith", "ann@x.test", "D1", none, some "1234", none, 0, true⟩
    [] "L1" 5 rfl⟩

/-- C7 counterexample: a driver whose stored PIN is the empty string.
The caller-supplied PIN `""` is exactly equal to the stored PIN, yet the
guard `!driver?.pin` treats the empty string as falsy and rejects the
attempt, so no row is created — refuting "authorized if and only if the
caller-supplied PIN is exactly equal to the driver's stored PIN". -/
theorem handlePinPunch_empty_pin_counterexample :
    ((⟨"d1", "Ann Smith", "ann@x.test", "D1", none, some "", none, 0, true⟩ :
        Driver).pin = some "") ∧
    handlePinPunch
      ⟨"d1", "Ann Smith", "ann@x.test", "D1", none, some "", none, 0, true⟩
      "" [] "L1" 5 = ([], none) := by
  constructor
  · rfl
  · decide

/-- C7 (amended): for a driver whose stored PIN is present and
non-empty, a PIN-method punch attempt is authorized exactly when the
caller-supplied PIN equals the stored PIN; on a mismatch the ledger is
unchanged and no row is created, and on a match exactly one row is
prepended, with method `pin` and the direction derived from the last
ledger entry. -/
theorem handlePinPunch_spec (driver : Driver) (p enteredPin : String)
    (ledger : List PunchLog) (newId : String) (now : Nat)
    (hp : driver.pin = some p) (hne : p ≠ "") :
    (enteredPin ≠ p →
      handlePinPunch driver enteredPin ledger newId now = (ledger, none)) ∧
    (enteredPin = p →
      ∃ row, handlePinPunch driver enteredPin ledger newId now = (row :: ledger, some row) ∧
        row.method = PunchMethod.pin ∧
        row.type = nextPunchType (getLastPunchLog ledger) ∧
        row.driverId = driver.driverId ∧
        row.driverName = driver.name ∧
        row.timestamp = now ∧
        row.id = newId) := by
  constructor
  · intro hmm
    unfold handlePinPunch
    rw [hp]
    simp [pinGuardRejects, hne, hmm]
  · intro heq
    refine ⟨mkPunchRow driver (nextPunchType (getLastPunchLog ledger)) PunchMethod.pin newId now, ?_, rfl, rfl, rfl, rfl, rfl, rfl⟩
    unfold handlePinPunch
    rw [hp]
    simp [pinGuardRejects, hne, heq]

/-- Witness for `handlePinPunch_spec`: a driver with stored PIN `1234`
and an empty ledger; entering `1234` is the success branch and any other
entry the rejection branch. -/
theorem handlePinPunch_spec_witness :
    ((⟨"d1", "Ann Smith", "ann@x.test", "D1", none, some "1234", none, 0, true⟩ :
        Driver).pin = some "1234") ∧ ("1234" : String) ≠ "" ∧
    (("1234" : String) ≠ "1234" →
      handlePinPunch
        ⟨"d1", "Ann Smith", "ann@x.test", "D1", none, some "1234", none, 0, true⟩
        "1234" [] "L1" 5 = ([], none)) ∧
    (("1234" : String) = "1234" →
      ∃ row, handlePinPunch
          ⟨"d1", "Ann Smith", "ann@x.test", "D1", none, some "1234", none, 0, true⟩
          "1234" [] "L1" 5 = (row :: [], some row) ∧
        row.method = PunchMethod.pin ∧
        row.type = nextPunchType (getLastPunchLog []) ∧
        row.driverId = (⟨"d1", "Ann Smith", "ann@x.test", "D1", none, some "1234", none, 0, true⟩ :
            Driver).driverId ∧
        row.driverName = (⟨"d1", "Ann Smith", "ann@x.test", "D1", none, some "1234", none, 0, true⟩ :
            Driver).name ∧
        row.timestamp = 5 ∧
        row.id = "L1") :=
  ⟨rfl, by decide,
    handlePinPunch_spec
      ⟨"d1", "Ann Smith", "ann@x.test", "D1", none, some "1234", none, 0, true⟩
      "1234" "1234" [] "L1" 5 rfl (by decide)⟩

/-- C10: for a driver whose stored PIN is absent or empty, every
PIN-method punch attempt is rejected whatever PIN is entered: the ledger
is unchanged and no row is created. -/
theorem handlePinPunch_absent_or_empty_pin (driver : Driver)
    (enteredPin : String) (ledger : List PunchLog) (newId : String) (now : Nat)
    (h : driver.pin = none ∨ driver.pin = some "") :
    handlePinPunch driver enteredPin ledger newId now = (ledger, none) := by
  unfold handlePinPunch
  rcases h with h | h <;> rw [h] <;> simp [pinGuardRejects]

/-- Witness for `handlePinPunch_absent_or_empty_pin`: a driver with no
stored PIN rejects even an empty entered PIN. -/
theorem handlePinPunch_absent_or_empty_pin_witness :
    ((⟨"d1", "Ann Smith", "ann@x.test", "D1", none, none, none, 0, true⟩ :
        Driver).pin = none ∨
     (⟨"d1", "Ann Smith", "ann@x.test", "D1", none, none, none, 0, true⟩ :
        Driver).pin = some "") ∧
    handlePinPunch
      ⟨"d1", "Ann Smith", "ann@x.test", "D1", none, none, none, 0, true⟩
      "" [] "L1" 5 = ([], none) :=
  ⟨Or.inl rfl,
    handlePinPunch_absent_or_empty_pin
      ⟨"d1", "Ann Smith", "ann@x.test", "D1", none, none, none, 0, true⟩
      "" [] "L1" 5 (Or.inl rfl)⟩

/-- Driver-dashboard flow state: `currentPunchLog` and `showReturnForm`
of `src/components/DriverDashboard.tsx`. -/
structure DashboardState where
  currentPunchLog : Option PunchLog
  showReturnForm : Bool
deriving DecidableEq

/-- The `handlePunchSuccess` callback of
`src/components/DriverDashboard.tsx` (lines 412-420): a punch-in stores
the log and opens the return-form step; a punch-out clears both. -/
def handlePunchSuccess (s : DashboardState) (log : PunchLog) : DashboardState :=
  if log.type = PunchDirection.inDir then
    { currentPunchLog := some log, showReturnForm := true }
  else
    { currentPunchLog := none, showReturnForm := false }

/-- C8: after a successful punch the return-form step is open exactly
when the punch direction was `in`; a punch-in ties the step to that punch
log, and a punch-out clears any current session. -/
theorem handlePunchSuccess_spec (s : DashboardState) (log : PunchLog) :
    ((handlePunchSuccess s log).showReturnForm = true ↔ log.type = PunchDirection.inDir) ∧
    (log.type = PunchDirection.inDir →
      handlePunchSuccess s log = ⟨some log, true⟩) ∧
    (log.type = PunchDirection.outDir →
      handlePunchSuccess s log = ⟨none, false⟩) := by
  cases hl : log.type <;> simp [handlePunchSuccess, hl]

/-- The return-form record built by `onSubmit` of
`src/components/ReturnForm.tsx` (lines 110-123) and persisted by
`createReturnForm`: driver id and name copied from the punch log, the
submitted items, `totalItems` recomputed as
`data.items.reduce((sum, item) => sum + item.quantity, 0)`, status
`pending`.  The id is the one the store assigns on `addDoc`. -/
def buildReturnForm (punchLog : PunchLog) (items : List ReturnItem)
    (newId : String) (now : Nat) : ReturnForm :=
  { id := newId
    driverId := punchLog.driverId
    driverName := punchLog.driverName
    punchLogId := punchLog.id
    items := items
    totalItems := items.foldl (fun sum item => sum + item.quantity) 0
    submittedAt := now
    status := FormStatus.pending }

/-- Folding quantity addition over a list from any accumulator adds the
sum of the quantities. -/
lemma foldl_quantity_sum (items : List ReturnItem) (acc : ℚ) :
    items.foldl (fun sum item => sum + item.quantity) acc =
      acc + (items.map ReturnItem.quantity).sum := by
  induction items generalizing acc with
  | nil => simp
  | cons it rest ih =>
    simp [List.foldl_cons, ih]
    ring

/-- C4: the stored `totalItems` of a submitted return form is the sum of
the item quantities, recomputed from the item list at submission time
(the submitted form data carries no caller-supplied aggregate). -/
theorem buildReturnForm_totalItems (punchLog : PunchLog)
    (items : List ReturnItem) (newId : String) (now : Nat) :
    (buildReturnForm punchLog items newId now).totalItems =
      (items.map ReturnItem.quantity).sum := by
  show items.foldl (fun sum item => sum + item.quantity) 0 =
    (items.map ReturnItem.quantity).sum
  rw [foldl_quantity_sum]
  ring

/-- The per-item zod schema `returnItemSchema` of
`src/components/ReturnForm.tsx` (lines 22-27): non-empty name, quantity
at least 1, condition one of the three enumerated values, notes
unchecked. -/
def validItem (it : ReturnItem) : Bool :=
  decide (1 ≤ it.itemName.length) && decide ((1 : ℚ) ≤ it.quantity) &&
    (decide (it.condition = "good") || decide (it.condition = "damaged") ||
      decide (it.condition = "missing"))

/-- The form-level zod schema `returnFormSchema` of
`src/components/ReturnForm.tsx` (lines 29-31): at least one item, every
item valid. -/
def validReturnForm (items : List ReturnItem) : Bool :=
  decide (1 ≤ items.length) && items.all validItem

/-- C6: return-form validation rejects an empty item list, any item with
an empty name, any item with quantity below 1, and any item whose
condition is outside the three enumerated values; it accepts every
non-empty list whose items all have a non-empty name, quantity at least
1, and an enumerated condition, whatever their notes. -/
theorem validReturnForm_spec :
    (validReturnForm [] = false) ∧
    (∀ items it, it ∈ items → it.itemName = "" → validReturnForm items = false) ∧
    (∀ items it, it ∈ items → it.quantity < 1 → validReturnForm items = false) ∧
    (∀ items it, it ∈ items →
      it.condition ≠ "good" → it.condition ≠ "damaged" → it.condition ≠ "missing" →
      validReturnForm items = false) ∧
    (∀ items, items ≠ [] →
      (∀ it, it ∈ items → it.itemName ≠ "" ∧ 1 ≤ it.quantity ∧
        (it.condition = "good" ∨ it.condition = "damaged" ∨ it.condition = "missing")) →
      validReturnForm items = true) := by
  refine ⟨rfl, ?_, ?_, ?_, ?_⟩
  · intro items it hmem hname
    have : validItem it = false := by
      simp [validItem, hname]
    simp only [validReturnForm, Bool.and_eq_false_iff]
    right
    simp only [List.all_eq_false]
    exact ⟨it, hmem, by simp [this]⟩
  · intro items it hmem hq
    have : validItem it = false := by
      simp [validItem]
      intro _ h1
      exact absurd h1 (not_le.mpr hq)
    simp only [validReturnForm, Bool.and_eq_false_iff]
    right
    simp only [List.all_eq_false]
    exact ⟨it, hmem, by simp [this]⟩
  · intro items it hmem hg hd hm
    have : validItem it = false := by
      simp [validItem, hg, hd, hm]
    simp only [validReturnForm, Bool.and_eq_false_iff]
    right
    simp only [List.all_eq_false]
    exact ⟨it, hmem, by simp [this]⟩
  · intro items hne hall
    simp only [validReturnForm, Bool.and_eq_true]
    constructor
    · simp [Nat.one_le_iff_ne_zero, List.length_eq_zero, hne]
    · rw [List.all_eq_true]
      intro it hmem
      rcases hall it hmem with ⟨hname, hq, hcond⟩
      have hlen : 1 ≤ it.itemName.length := by
        by_contra hcon
        push_neg at hcon
        interval_cases h : it.itemName.length
        exact hname (String.ext (List.length_eq_zero.mp (by simpa using h)))
      simp only [validItem, Bool.and_eq_true, Bool.or_eq_true, decide_eq_true_eq]
      exact ⟨⟨hlen, hq⟩, by tauto⟩

/-- The admin status transition `updateFormStatus` of
`src/components/AdminDashboard.tsx` (lines 75-86): it issues
`updateReturnForm(formId, { status })` — a partial document update that
sets only the `status` field — and mirrors it locally with
`forms.map(form => form.id === formId ? { ...form, status } : form)`.
There is no check of the form's current status. -/
def updateFormStatus (forms : List ReturnForm) (formId : String)
    (status : FormStatus) : List ReturnForm :=
  forms.map (fun form =>
    if form.id = formId then { form with status := status } else form)

/-- C5: the admin status transition rewrites only the `status` field of
the targeted form — every other field, and every other form, is carried
over unchanged — and it applies whatever the form's current status is, so
re-issuing a transition on an already-decided form simply overwrites the
status. -/
theorem updateFormStatus_spec (forms : List ReturnForm) (formId : String)
    (status : FormStatus) (form : ReturnForm) (hmem : form ∈ forms) :
    (updateFormStatus forms formId status).length = forms.length ∧
    (form.id ≠ formId → form ∈ updateFormStatus forms formId status) ∧
    (form.id = formId →
      { form with status := status } ∈ updateFormStatus forms formId status) := by
  refine ⟨List.length_map _ _, ?_, ?_⟩
  · intro hne
    have := List.mem_map_of_mem
      (fun f : ReturnForm => if f.id = formId then { f with status := status } else f) hmem
    simpa [updateFormStatus, hne] using this
  · intro heq
    have := List.mem_map_of_mem
      (fun f : ReturnForm => if f.id = formId then { f with status := status } else f) hmem
    simpa [updateFormStatus, heq] using this

/-- Witness for `updateFormStatus_spec`: re-approving a form that is
already `approved` — only the status field is rewritten (here to the same
value), all other fields are untouched. -/
theorem updateFormStatus_spec_witness :
    ((⟨"F1", "D1", "Ann Smith", "L1", [], 0, 7, FormStatus.approved⟩ : ReturnForm) ∈
      [(⟨"F1", "D1", "Ann Smith", "L1", [], 0, 7, FormStatus.approved⟩ : ReturnForm)]) ∧
    ((updateFormStatus
        [(⟨"F1", "D1", "Ann Smith", "L1", [], 0, 7, FormStatus.approved⟩ : ReturnForm)]
        "F1" FormStatus.approved).length =
      [(⟨"F1", "D1", "Ann Smith", "L1", [], 0, 7, FormStatus.approved⟩ : ReturnForm)].length ∧
     ((⟨"F1", "D1", "Ann Smith", "L1", [], 0, 7, FormStatus.approved⟩ : ReturnForm).id ≠ "F1" →
       (⟨"F1", "D1", "Ann Smith", "L1", [], 0, 7, FormStatus.approved⟩ : ReturnForm) ∈
         updateFormStatus
           [(⟨"F1", "D1", "Ann Smith", "L1", [], 0, 7, FormStatus.approved⟩ : ReturnForm)]
           "F1" FormStatus.approved) ∧
     ((⟨"F1", "D1", "Ann Smith", "L1", [], 0, 7, FormStatus.approved⟩ : ReturnForm).id = "F1" →
       { (⟨"F1", "D1", "Ann Smith", "L1", [], 0, 7, FormStatus.approved⟩ : ReturnForm) with
           status := FormStatus.approved } ∈
         updateFormStatus
           [(⟨"F1", "D1", "Ann Smith", "L1", [], 0, 7, FormStatus.approved⟩ : ReturnForm)]
           "F1" FormStatus.approved)) :=
  ⟨List.mem_singleton.mpr rfl,
    updateFormStatus_spec
      [(⟨"F1", "D1", "Ann Smith", "L1", [], 0, 7, FormStatus.approved⟩ : ReturnForm)]
      "F1" FormStatus.approved
      ⟨"F1", "D1", "Ann Smith", "L1", [], 0, 7, FormStatus.approved⟩
      (List.mem_singleton.mpr rfl)⟩

/-- The `getDriverByDriverId` query of `src/lib/firestore.ts`
(lines 115-138): it queries the `users` collection — not `drivers` —
with equality filters `driverId == driverId` and `role == "driver"`,
returns `null` on an empty snapshot and otherwise the data of the first
matching document. -/
def getDriverByDriverId (users : List User) (driverId : String) : Option User :=
  (users.filter (fun u =>
    decide (u.driverId = some driverId) && decide (u.role = Role.driver))).head?

/-- Modelled from the spec: the driver directory lookup the spec
describes — "resolves a driver's external identifier to their profile
(name, PIN, face descriptor)" — which would read the `drivers`
collection, whose documents carry those fields.  Written for comparison
with `getDriverByDriverId`, which reads `users` instead. -/
def getDriverProfileSpec (drivers : List Driver) (driverId : String) : Option Driver :=
  (drivers.filter (fun d => decide (d.driverId = driverId))).head?

/-- C3 counterexample: a store whose `drivers` collection holds a driver
with external identifier `D1` — complete with name, PIN and face
descriptor — while the `users` collection is empty.  A driver with that
identifier exists, and the spec-described lookup finds the profile, yet
`getDriverByDriverId` returns `null` because it queries `users`. -/
theorem getDriverByDriverId_counterexample :
    getDriverProfileSpec
        [⟨"d1", "Ann Smith", "ann@x.test", "D1", none, some "1234", some [0], 0, true⟩]
        "D1" =
      some ⟨"d1", "Ann Smith", "ann@x.test", "D1", none, some "1234", some [0], 0, true⟩ ∧
    getDriverByDriverId [] "D1" = none := by
  constructor
  · decide
  · rfl

/-- C3 (amended): the lookup searches the `users` collection for records
with role `driver` and the given `driverId`; it returns `null` exactly
when no such user record exists, and otherwise some matching user record
from the collection — a record that carries id, email, role and driver
id, not the name, PIN or face descriptor of the `drivers` collection. -/
theorem getDriverByDriverId_users_lookup (users : List User) (driverId : String) :
    (getDriverByDriverId users driverId = none ↔
      ∀ u, u ∈ users → ¬(u.driverId = some driverId ∧ u.role = Role.driver)) ∧
    (∀ u, getDriverByDriverId users driverId = some u →
      u ∈ users ∧ u.driverId = some driverId ∧ u.role = Role.driver) := by
  constructor
  · rw [getDriverByDriverId, List.head?_eq_none_iff, List.filter_eq_nil_iff]
    constructor
    · intro hall u hmem hconj
      have := hall u hmem
      simp only [Bool.and_eq_true, decide_eq_true_eq] at this
      exact this ⟨hconj.1, hconj.2⟩
    · intro hall u hmem
      simp only [Bool.and_eq_true, decide_eq_true_eq]
      intro hconj
      exact hall u hmem ⟨hconj.1, hconj.2⟩
  · intro u hu
    have hmem : u ∈ users.filter (fun u =>
        decide (u.driverId = some driverId) && decide (u.role = Role.driver)) := by
      unfold getDriverByDriverId at hu
      exact List.mem_of_mem_head? hu
    have h1 := List.mem_of_mem_filter hmem
    have h2 := List.of_mem_filter hmem
    simp only [Bool.and_eq_true, decide_eq_true_eq] at h2
    exact ⟨h1, h2.1, h2.2⟩

end DMS
